import Mathlib

/-!
Shallow embedding of the Unix timer subsystem of `src/unix/utimernu.c`
(ALLEGRO_TIMER objects, the active-timers registry, and the timer-thread
advance loop), together with proofs of the specification claims.

Conventions of the embedding:
* C `long` fields (`msecs_t`, `usecs_t`, `count`, `counter`) are modelled as
  mathematical `Int`; the source asserts positivity of speeds, and none of the
  verified properties depend on fixed-width overflow.
* The event source (`ALLEGRO_EVENT_SOURCE`) is external to this core; its
  observable inputs during a tick (`_al_event_source_needs_to_generate_event`,
  whether `_al_event_source_get_unused_event` returns a buffer, and
  `al_current_time()`) are passed as parameters, and an emitted event is the
  function's second result.
* Allocation in `al_install_timer` is modelled by a boolean `allocOk`
  parameter (`_AL_MALLOC` succeeding or not).
* The mutex only serialises access; the sequential functions below are the
  critical sections themselves.
-/

/-- The timer object, from `struct ALLEGRO_TIMER` (utimernu.c lines 39-46).
The embedded event source `es` is modelled externally (see module comment). -/
structure Timer where
  started : Bool
  speed_usecs : Int
  count : Int
  counter : Int
deriving Repr, DecidableEq

/-- Event type tag; `ALLEGRO_EVENT_TIMER` is the only tag this module emits. -/
inductive EventType where
  | timerEvent
deriving Repr, DecidableEq

/-- The fields of `event->timer` set by `timer_handle_tick`
(utimernu.c lines 364-366). -/
structure TimerEvent where
  type : EventType
  timestamp : Int
  count : Int
deriving Repr, DecidableEq

/-- `timer_handle_tick` (utimernu.c lines 350-372): increment `count`; then,
if the event source reports that an event is needed and an unused event buffer
is available, fill it with `ALLEGRO_EVENT_TIMER`, the current time and the
(post-increment) count and emit it.  `needs_event` models
`_al_event_source_needs_to_generate_event`, `hasUnused` models
`_al_event_source_get_unused_event` returning non-NULL, `now` models
`al_current_time()`.  The emitted event, if any, is the second component. -/
def timer_handle_tick (t : Timer) (needs_event hasUnused : Bool) (now : Int) :
    Timer × Option TimerEvent :=
  let t2 : Timer := { t with count := t.count + 1 }
  if needs_event then
    if hasUnused then
      (t2, some { type := EventType.timerEvent, timestamp := now, count := t2.count })
    else
      (t2, none)
  else
    (t2, none)

/-- The catch-up loop of `timer_thread_handle_tick` (utimernu.c lines 142-145):
`while (counter <= 0) { counter += speed; fire one tick }`.  Returns the final
counter and the number of ticks fired.  The conjunct `0 < speed` in the guard
encodes termination: in the source every timer's `speed_usecs` is positive
(`ASSERT(speed_msecs > 0)` in `al_install_timer` and `al_timer_set_speed`),
so on reachable states the guard agrees with the source's `counter <= 0`. -/
def catchup (speed : Int) (counter : Int) : Int × Nat :=
  if h : counter ≤ 0 ∧ 0 < speed then
    ((catchup speed (counter + speed)).1, (catchup speed (counter + speed)).2 + 1)
  else
    (counter, 0)
termination_by (1 - counter).toNat
decreasing_by omega

/-- One timer's update inside the loop body of `timer_thread_handle_tick`
(utimernu.c lines 140-145): `counter -= interval`, then the catch-up loop.
Each tick calls `timer_handle_tick`, whose only effect on the timer state is
`count := count + 1` (the event emission is modelled by `timer_handle_tick`
itself), so firing `n` ticks adds `n` to `count`.  Returns the updated timer
and the number of ticks fired. -/
def timer_advance (interval : Int) (t : Timer) : Timer × Nat :=
  let r := catchup t.speed_usecs (t.counter - interval)
  ({ t with counter := r.1, count := t.count + (r.2 : Int) }, r.2)

/-- The `for` loop of `timer_thread_handle_tick` (utimernu.c lines 136-149)
over the list of active timers, threading `new_delay` exactly as the source:
after updating a timer, `if ((counter > 0) && (counter < new_delay))
new_delay = counter`. -/
def handle_tick_go (interval : Int) : List Timer → Int → List Timer × Int
  | [], new_delay => ([], new_delay)
  | t :: ts, new_delay =>
    let t2 := (timer_advance interval t).1
    let nd2 := if t2.counter > 0 ∧ t2.counter < new_delay then t2.counter else new_delay
    ((t2 :: (handle_tick_go interval ts nd2).1), (handle_tick_go interval ts nd2).2)

/-- `timer_thread_handle_tick` (utimernu.c lines 131-152): update every active
timer and return the duration the timer thread should try to sleep next time;
`new_delay` starts at `0x8000`. -/
def timer_thread_handle_tick (interval : Int) (timers : List Timer) : List Timer × Int :=
  handle_tick_go interval timers 0x8000

/-- The initial sleep interval of `timer_thread_proc`
(utimernu.c line 97: `usecs_t interval = 0x8000;`). -/
def timer_thread_initial_interval : Int := 0x8000

/-- The timer object built by `al_install_timer` on allocation success
(utimernu.c lines 173-177): `started = false`, `count = 0`,
`speed_usecs = speed_msecs * 1000`, `counter = 0`. -/
def newTimer (speed_msecs : Int) : Timer :=
  { started := false, speed_usecs := speed_msecs * 1000, count := 0, counter := 0 }

/-- `al_install_timer` (utimernu.c lines 164-184).  `allocOk` models
`_AL_MALLOC` succeeding; on failure the function returns the null pointer
(`none`), otherwise the freshly initialised timer.  Precondition of the
source: `ASSERT(speed_msecs > 0)`. -/
def al_install_timer (speed_msecs : Int) (allocOk : Bool) : Option Timer :=
  if allocOk then some (newTimer speed_msecs) else none

/-- `al_timer_is_started` (utimernu.c lines 276-281). -/
def al_timer_is_started (t : Timer) : Bool :=
  t.started

/-- `al_timer_get_speed` (utimernu.c lines 288-293): `speed_usecs / 1000`.
C integer division on `long` truncates toward zero, i.e. `Int.tdiv`. -/
def al_timer_get_speed (t : Timer) : Int :=
  Int.tdiv t.speed_usecs 1000

/-- `al_timer_set_speed` (utimernu.c lines 300-315): under the registry mutex,
if the timer is started then `counter -= speed_usecs; counter +=
new_speed_msecs * 1000`; in all cases `speed_usecs = new_speed_msecs * 1000`.
Precondition of the source: `ASSERT(new_speed_msecs > 0)`. -/
def al_timer_set_speed (t : Timer) (new_speed_msecs : Int) : Timer :=
  let t2 := if t.started then
      { t with counter := t.counter - t.speed_usecs + new_speed_msecs * 1000 }
    else
      t
  { t2 with speed_usecs := new_speed_msecs * 1000 }

/-- `al_timer_get_count` (utimernu.c lines 322-327). -/
def al_timer_get_count (t : Timer) : Int :=
  t.count

/-- `al_timer_set_count` (utimernu.c lines 334-343): under the registry mutex,
`count = new_count`; nothing else is touched. -/
def al_timer_set_count (t : Timer) (new_count : Int) : Timer :=
  { t with count := new_count }

/-- Timer identity (the pointer value of the C object). -/
abbrev TimerId := Nat

/-- The mutable state shared between the API functions and the timer thread:
the heap of timer objects (indexed by identity) and the `active_timers`
vector (utimernu.c line 56), a list of timer identities. -/
structure TimerSystem where
  timers : TimerId → Timer
  registry : List TimerId

/-- `al_install_timer` viewed on the shared state: allocation at a fresh
identity `id` stores the initialised object; the registry is untouched
(utimernu.c lines 164-184 never mention `active_timers`). -/
def al_install_timer_at (s : TimerSystem) (id : TimerId) (speed_msecs : Int) : TimerSystem :=
  { s with timers := Function.update s.timers id (newTimer speed_msecs) }

/-- `al_start_timer` (utimernu.c lines 209-237): return immediately if already
started; otherwise, under the mutex, set `started = true`,
`counter = speed_usecs`, and append the timer to `active_timers`
(`_al_vector_alloc_back`). -/
def al_start_timer (s : TimerSystem) (id : TimerId) : TimerSystem :=
  if (s.timers id).started then s
  else
    { timers := Function.update s.timers id
        { s.timers id with started := true, counter := (s.timers id).speed_usecs },
      registry := s.registry ++ [id] }

/-- `al_stop_timer` (utimernu.c lines 245-269): return immediately if not
started; otherwise, under the mutex, remove the first (only) occurrence of the
timer from `active_timers` (`_al_vector_find_and_delete`) and set
`started = false`. -/
def al_stop_timer (s : TimerSystem) (id : TimerId) : TimerSystem :=
  if !(s.timers id).started then s
  else
    { timers := Function.update s.timers id { s.timers id with started := false },
      registry := s.registry.erase id }

/-- `timer_thread_handle_tick` viewed on the shared state: the loop walks the
`active_timers` vector, updating each referenced timer object in place and
threading `new_delay`; the vector itself is only read. -/
def advance_go (interval : Int) : List TimerId → (TimerId → Timer) → Int → (TimerId → Timer) × Int
  | [], timers, new_delay => (timers, new_delay)
  | id :: ids, timers, new_delay =>
    let t2 := (timer_advance interval (timers id)).1
    let nd2 := if t2.counter > 0 ∧ t2.counter < new_delay then t2.counter else new_delay
    advance_go interval ids (Function.update timers id t2) nd2

/-- One cycle of the timer thread on the shared state (utimernu.c lines
131-152): the registry list is returned unchanged, the timer objects it
references are advanced, and the next sleep interval is computed. -/
def system_advance (interval : Int) (s : TimerSystem) : TimerSystem × Int :=
  ({ timers := (advance_go interval s.registry s.timers 0x8000).1, registry := s.registry },
   (advance_go interval s.registry s.timers 0x8000).2)

/-- The registry membership invariant: a timer's identity occurs in
`active_timers` exactly once if it is started and not at all otherwise. -/
def RegistryInvariant (s : TimerSystem) : Prop :=
  ∀ id, s.registry.count id = if (s.timers id).started then 1 else 0

/-! ### Helper lemmas about the catch-up loop -/

theorem catchup_of_not_guard (speed counter : Int) (h : ¬(counter ≤ 0 ∧ 0 < speed)) :
    catchup speed counter = (counter, 0) := by
  rw [catchup, dif_neg h]

theorem catchup_of_guard (speed counter : Int) (h1 : counter ≤ 0) (h2 : 0 < speed) :
    catchup speed counter =
      ((catchup speed (counter + speed)).1, (catchup speed (counter + speed)).2 + 1) := by
  rw [catchup, dif_pos ⟨h1, h2⟩]

theorem catchup_spec_aux (speed : Int) (hs : 0 < speed) :
    ∀ n : Nat, ∀ counter : Int, (1 - counter).toNat ≤ n →
      (catchup speed counter).1 = counter + ((catchup speed counter).2 : Int) * speed ∧
      0 < (catchup speed counter).1 ∧
      ∀ j : Nat, j < (catchup speed counter).2 → counter + (j : Int) * speed ≤ 0 := by
  intro n
  induction n with
  | zero =>
    intro counter hc
    have hpos : 0 < counter := by omega
    rw [catchup_of_not_guard speed counter (by omega)]
    exact ⟨by simp, hpos, by simp⟩
  | succ n ih =>
    intro counter hc
    by_cases hc0 : counter ≤ 0
    · rw [catchup_of_guard speed counter hc0 hs]
      obtain ⟨e1, e2, e3⟩ := ih (counter + speed) (by omega)
      refine ⟨?_, e2, ?_⟩
      · rw [e1]
        push_cast
        ring
      · intro j hj
        simp only at hj
        match j with
        | 0 => simpa using hc0
        | j' + 1 =>
          have h3 := e3 j' (by omega)
          push_cast at h3 ⊢
          linarith
    · rw [catchup_of_not_guard speed counter (by omega)]
      exact ⟨by simp, by omega, by simp⟩

/-- Closed-form facts about `catchup`: the final counter equals the initial
counter plus one period per tick fired, it is strictly positive, and the tick
count is minimal (every smaller number of periods would leave it
non-positive). -/
theorem catchup_spec (speed counter : Int) (hs : 0 < speed) :
    (catchup speed counter).1 = counter + ((catchup speed counter).2 : Int) * speed ∧
    0 < (catchup speed counter).1 ∧
    ∀ j : Nat, j < (catchup speed counter).2 → counter + (j : Int) * speed ≤ 0 :=
  catchup_spec_aux speed hs (1 - counter).toNat counter le_rfl

/-- The number of ticks fired by the catch-up loop on a non-positive counter:
`floor((-counter)/speed) + 1`. -/
theorem catchup_ticks (speed counter : Int) (hs : 0 < speed) (hc : counter ≤ 0) :
    ((catchup speed counter).2 : Int) = (-counter) / speed + 1 := by
  obtain ⟨e1, e2, e3⟩ := catchup_spec speed counter hs
  have hk1 : 1 ≤ (catchup speed counter).2 := by
    by_contra hlt
    have hz : (catchup speed counter).2 = 0 := by omega
    rw [hz] at e1
    simp at e1
    omega
  have hub : -counter < ((catchup speed counter).2 : Int) * speed := by
    rw [e1] at e2
    linarith
  have h3 := e3 ((catchup speed counter).2 - 1) (by omega)
  rw [Nat.cast_sub hk1] at h3
  push_cast at h3
  have hlb : (((catchup speed counter).2 : Int) - 1) * speed ≤ -counter := by linarith
  have q1 : ((catchup speed counter).2 : Int) - 1 ≤ (-counter) / speed :=
    (Int.le_ediv_iff_mul_le hs).2 hlb
  have q2 : (-counter) / speed < ((catchup speed counter).2 : Int) :=
    (Int.ediv_lt_iff_lt_mul hs).2 hub
  omega

/-! ### Helper lemmas about the per-cycle loop -/

theorem timer_advance_started (interval : Int) (t : Timer) :
    (timer_advance interval t).1.started = t.started := rfl

theorem timer_advance_speed (interval : Int) (t : Timer) :
    (timer_advance interval t).1.speed_usecs = t.speed_usecs := rfl

theorem timer_advance_counter_pos (interval : Int) (t : Timer) (hs : 0 < t.speed_usecs) :
    0 < (timer_advance interval t).1.counter :=
  (catchup_spec t.speed_usecs (t.counter - interval) hs).2.1

theorem handle_tick_go_fst (interval : Int) :
    ∀ (ts : List Timer) (nd : Int),
      (handle_tick_go interval ts nd).1 = ts.map (fun t => (timer_advance interval t).1) := by
  intro ts
  induction ts with
  | nil => intro nd; rfl
  | cons t ts ih => intro nd; simp [handle_tick_go, ih]

theorem handle_tick_go_delay (interval : Int) :
    ∀ (ts : List Timer) (nd : Int), (∀ t ∈ ts, 0 < t.speed_usecs) →
      (handle_tick_go interval ts nd).2
        = (ts.map (fun t => (timer_advance interval t).1.counter)).foldl min nd := by
  intro ts
  induction ts with
  | nil => intro nd _; rfl
  | cons t ts ih =>
    intro nd h
    have hpos : 0 < (timer_advance interval t).1.counter :=
      timer_advance_counter_pos interval t (h t (by simp))
    simp only [handle_tick_go, List.map_cons, List.foldl_cons]
    rw [ih _ (fun u hu => h u (by simp [hu]))]
    congr 1
    split
    · next hg => omega
    · next hg =>
      rw [not_and_or] at hg
      omega

theorem handle_tick_go_bounds (interval : Int) :
    ∀ (ts : List Timer) (nd : Int), 0 < nd →
      0 < (handle_tick_go interval ts nd).2 ∧ (handle_tick_go interval ts nd).2 ≤ nd := by
  intro ts
  induction ts with
  | nil => intro nd hnd; exact ⟨hnd, le_rfl⟩
  | cons t ts ih =>
    intro nd hnd
    simp only [handle_tick_go]
    split
    · next hg =>
      obtain ⟨r1, r2⟩ := ih (timer_advance interval t).1.counter hg.1
      exact ⟨r1, le_trans r2 (le_of_lt hg.2)⟩
    · exact ih nd hnd

theorem advance_go_started (interval : Int) :
    ∀ (ids : List TimerId) (f : TimerId → Timer) (nd : Int) (j : TimerId),
      ((advance_go interval ids f nd).1 j).started = (f j).started := by
  intro ids
  induction ids with
  | nil => intros; rfl
  | cons id ids ih =>
    intro f nd j
    simp only [advance_go]
    rw [ih]
    rcases eq_or_ne j id with rfl | hne
    · simp [Function.update_apply, timer_advance_started]
    · simp [Function.update_apply, hne]

/-! ### The specification claims -/

/-- Claim C1: when the timer thread processes a timer with period `P > 0`,
countdown `c` and measured elapsed time `e`, it fires exactly
`floor((e - c)/P) + 1` ticks when `c - e ≤ 0` and zero ticks otherwise, with
no cap on the number of ticks in one cycle, incrementing the count once per
tick, and leaves the strictly positive remainder countdown
`c - e + ticks * P`. -/
theorem spec_C1 (t : Timer) (e : Int) (hP : 0 < t.speed_usecs) :
    (t.counter - e ≤ 0 →
      ((timer_advance e t).2 : Int) = (e - t.counter) / t.speed_usecs + 1) ∧
    (0 < t.counter - e → (timer_advance e t).2 = 0) ∧
    (timer_advance e t).1.counter
      = t.counter - e + ((timer_advance e t).2 : Int) * t.speed_usecs ∧
    0 < (timer_advance e t).1.counter ∧
    (timer_advance e t).1.count = t.count + ((timer_advance e t).2 : Int) := by
  obtain ⟨e1, e2, e3⟩ := catchup_spec t.speed_usecs (t.counter - e) hP
  refine ⟨?_, ?_, ?_, ?_, ?_⟩
  · intro hle
    have h := catchup_ticks t.speed_usecs (t.counter - e) hP hle
    rw [neg_sub] at h
    simpa [timer_advance] using h
  · intro hgt
    have h := catchup_of_not_guard t.speed_usecs (t.counter - e) (by omega)
    simp [timer_advance, h]
  · simpa [timer_advance] using e1
  · simpa [timer_advance] using e2
  · simp [timer_advance]

/-- Witness for C1: a stall of 3.5 periods (period 1000 µs, countdown one full
period of 1000 µs, elapsed 3500 µs) fires exactly `floor(2500/1000) + 1 = 3`
ticks and leaves countdown 500 µs. -/
theorem spec_C1_witness :
    ((timer_advance 3500 ⟨true, 1000, 0, 1000⟩).2 : Int) = (3500 - 1000) / 1000 + 1 ∧
    ((3500 - 1000 : Int) / 1000 + 1 = 3) :=
  ⟨(spec_C1 ⟨true, 1000, 0, 1000⟩ 3500 (by decide)).1 (by decide), by decide⟩

/-- Claim C2: `al_timer_set_speed` preserves phase: for a started timer with
countdown `c`, changing the period from `P1 = speed_usecs` to
`P2 = new_speed_msecs * 1000 > 0` yields countdown `c + (P2 - P1)`, not a
reset to `P2`, and stores period `P2`; for a non-started timer the stored
period still becomes `P2` and the countdown is unchanged. -/
theorem spec_C2 (t : Timer) (new_speed_msecs : Int) (hpos : 0 < new_speed_msecs) :
    (t.started = true →
      (al_timer_set_speed t new_speed_msecs).counter
        = t.counter + (new_speed_msecs * 1000 - t.speed_usecs)) ∧
    (t.started = false →
      (al_timer_set_speed t new_speed_msecs).counter = t.counter) ∧
    (al_timer_set_speed t new_speed_msecs).speed_usecs = new_speed_msecs * 1000 ∧
    (al_timer_set_speed t new_speed_msecs).count = t.count ∧
    (al_timer_set_speed t new_speed_msecs).started = t.started := by
  cases h : t.started <;> simp [al_timer_set_speed, h] <;> ring

/-- Witness for C2: a started timer with period 1000 µs and countdown 700 µs,
re-sped to 2 ms, gets countdown `700 + (2000 - 1000)`. -/
theorem spec_C2_witness :
    (al_timer_set_speed ⟨true, 1000, 0, 700⟩ 2).counter = 700 + (2 * 1000 - 1000) :=
  (spec_C2 ⟨true, 1000, 0, 700⟩ 2 (by decide)).1 rfl

/-- Claim C3: the per-cycle advance returns, as the next sleep interval, the
minimum of the fixed idle interval `0x8000 = 32768` µs and all post-update
countdowns (under the source invariant that every active timer's period is
positive, every post-update countdown is positive, so this is the minimum
positive countdown floored at the default, and the default alone when the
registry is empty); the timer thread's very first sleep interval is also
`0x8000 = 32768` µs. -/
theorem spec_C3 (interval : Int) (ts : List Timer)
    (hs : ∀ t ∈ ts, 0 < t.speed_usecs) :
    (timer_thread_handle_tick interval ts).2
      = (((timer_thread_handle_tick interval ts).1).map Timer.counter).foldl min 0x8000 ∧
    timer_thread_initial_interval = 32768 := by
  constructor
  · rw [timer_thread_handle_tick, handle_tick_go_delay interval ts 0x8000 hs,
      handle_tick_go_fst, List.map_map]
    rfl
  · rfl

/-- Witness for C3: one active timer with period 1000 µs, countdown 1000 µs,
elapsed 100 µs. -/
theorem spec_C3_witness :
    (timer_thread_handle_tick 100 [⟨true, 1000, 0, 1000⟩]).2
      = (((timer_thread_handle_tick 100 [⟨true, 1000, 0, 1000⟩]).1).map
          Timer.counter).foldl min 0x8000 :=
  (spec_C3 100 [⟨true, 1000, 0, 1000⟩] (by decide)).1

/-- Claim C4: the registry membership invariant (`started = true` iff the
identity occurs exactly once in `active_timers`) holds after `al_install_timer`
at a fresh identity, is preserved by `al_start_timer` and `al_stop_timer`, and
the timer thread's advance never adds or removes registry entries and
preserves the invariant. -/
theorem spec_C4 (s : TimerSystem) (id : TimerId) (speed_msecs interval : Int)
    (hinv : RegistryInvariant s) :
    (s.registry.count id = 0 → RegistryInvariant (al_install_timer_at s id speed_msecs)) ∧
    RegistryInvariant (al_start_timer s id) ∧
    RegistryInvariant (al_stop_timer s id) ∧
    (system_advance interval s).1.registry = s.registry ∧
    RegistryInvariant (system_advance interval s).1 ∧
    (∀ j, (s.timers j).started = true ↔ s.registry.count j = 1) := by
  refine ⟨?_, ?_, ?_, rfl, ?_, ?_⟩
  · intro h0 j
    rcases eq_or_ne j id with rfl | hne
    · simp [al_install_timer_at, Function.update_apply, newTimer, h0]
    · simpa [al_install_timer_at, Function.update_apply, hne] using hinv j
  · unfold al_start_timer
    split
    · exact hinv
    · intro j
      rcases eq_or_ne j id with rfl | hne
      · simp [Function.update, List.count_append, hinv j, *]
      · simp [Function.update, List.count_append, hinv j, hne, Ne.symm hne]
  · unfold al_stop_timer
    split
    · exact hinv
    · next hst =>
      intro j
      rcases eq_or_ne j id with rfl | hne
      · simp only [Function.update, List.count_erase_self]
        simp only [Bool.not_eq_true', Bool.not_eq_false] at hst
        simp [hinv j, hst]
      · simp only [Function.update_apply, hne, if_false]
        rw [List.count_erase_of_ne hne]
        exact hinv j
  · intro j
    simp only [system_advance, advance_go_started]
    exact hinv j
  · intro j
    have h := hinv j
    constructor
    · intro h1
      rw [h1] at h
      simpa using h
    · intro h1
      by_cases h2 : (s.timers j).started = true
      · exact h2
      · rw [if_neg h2] at h
        omega

/-- Witness for C4: the empty system with all-fresh timers satisfies the
invariant; installing at identity 0 and starting identity 0 preserve it. -/
theorem spec_C4_witness :
    RegistryInvariant (al_install_timer_at ⟨fun _ => newTimer 10, []⟩ 0 5) ∧
    RegistryInvariant (al_start_timer ⟨fun _ => newTimer 10, []⟩ 0) := by
  constructor
  · exact (spec_C4 ⟨fun _ => newTimer 10, []⟩ 0 5 0 (by intro id; rfl)).1 (by rfl)
  · exact (spec_C4 ⟨fun _ => newTimer 10, []⟩ 0 5 0 (by intro id; rfl)).2.1

/-- Claim C5: `al_start_timer` on an already-started timer changes nothing;
on a non-started timer it sets `started` to true, sets the countdown to
exactly the current period `speed_usecs`, appends the timer to the registry,
and leaves `count`, `speed_usecs` and all other timers unchanged. -/
theorem spec_C5 (s : TimerSystem) (id : TimerId) :
    ((s.timers id).started = true → al_start_timer s id = s) ∧
    ((s.timers id).started = false →
      ((al_start_timer s id).timers id).started = true ∧
      ((al_start_timer s id).timers id).counter = (s.timers id).speed_usecs ∧
      (al_start_timer s id).registry = s.registry ++ [id] ∧
      ((al_start_timer s id).timers id).count = (s.timers id).count ∧
      ((al_start_timer s id).timers id).speed_usecs = (s.timers id).speed_usecs ∧
      ∀ j, j ≠ id → (al_start_timer s id).timers j = s.timers j) := by
  constructor
  · intro h
    simp [al_start_timer, h]
  · intro h
    have hns : ¬(s.timers id).started = true := by simp [h]
    simp only [al_start_timer, if_neg hns]
    refine ⟨by simp [Function.update_apply], by simp [Function.update_apply], by simp,
      by simp [Function.update_apply], by simp [Function.update_apply], ?_⟩
    intro j hj
    simp [Function.update_apply, hj]

/-- Witness for C5: starting the (fresh, non-started) timer 0 sets its
`started` flag. -/
theorem spec_C5_witness :
    ((al_start_timer ⟨fun _ => newTimer 10, []⟩ 0).timers 0).started = true :=
  ((spec_C5 ⟨fun _ => newTimer 10, []⟩ 0).2 rfl).1

/-- Claim C6: for every positive period, `al_install_timer` returns the null
pointer iff allocation fails; on success the returned timer has
`started = false`, `count = 0`, and stores the requested period
(`speed_usecs = speed_msecs * 1000`, read back unchanged by
`al_timer_get_speed`). -/
theorem spec_C6 (speed_msecs : Int) (hpos : 0 < speed_msecs) (allocOk : Bool) :
    (al_install_timer speed_msecs allocOk = none ↔ allocOk = false) ∧
    ∀ t, al_install_timer speed_msecs allocOk = some t →
      t.started = false ∧ t.count = 0 ∧ t.speed_usecs = speed_msecs * 1000 ∧
      al_timer_get_speed t = speed_msecs := by
  constructor
  · cases allocOk <;> simp [al_install_timer]
  · intro t ht
    cases allocOk <;> simp [al_install_timer] at ht
    subst ht
    refine ⟨rfl, rfl, rfl, ?_⟩
    exact Int.mul_tdiv_cancel speed_msecs (by norm_num)

/-- Witness for C6: `al_install_timer 10` with successful allocation yields a
non-started timer with zero count and stored period 10 ms. -/
theorem spec_C6_witness :
    (newTimer 10).started = false ∧ (newTimer 10).count = 0 ∧
    (newTimer 10).speed_usecs = 10 * 1000 ∧ al_timer_get_speed (newTimer 10) = 10 :=
  (spec_C6 10 (by decide) true).2 (newTimer 10) rfl

/-- Claim C7: every fired tick increments `count` by exactly one and touches
no other timer field, regardless of the event-source outcome: if no subscriber
needs an event, or no unused event buffer is available, no event is emitted
(the notification is silently dropped) while the count is still incremented;
when an event is emitted it carries type `ALLEGRO_EVENT_TIMER`, the current
timestamp, and the post-increment count. -/
theorem spec_C7 (t : Timer) (needs_event hasUnused : Bool) (now : Int) :
    (timer_handle_tick t needs_event hasUnused now).1.count = t.count + 1 ∧
    (timer_handle_tick t needs_event hasUnused now).1.started = t.started ∧
    (timer_handle_tick t needs_event hasUnused now).1.speed_usecs = t.speed_usecs ∧
    (timer_handle_tick t needs_event hasUnused now).1.counter = t.counter ∧
    ((needs_event = false ∨ hasUnused = false) →
      (timer_handle_tick t needs_event hasUnused now).2 = none) ∧
    (needs_event = true → hasUnused = true →
      (timer_handle_tick t needs_event hasUnused now).2 =
        some { type := EventType.timerEvent, timestamp := now, count := t.count + 1 }) := by
  cases needs_event <;> cases hasUnused <;> simp [timer_handle_tick]

/-- Witness for C7: a tick with a subscriber and an available buffer at time
42 emits a timer event stamped with the post-increment count 1. -/
theorem spec_C7_witness :
    (timer_handle_tick ⟨true, 1000, 0, 1000⟩ true true 42).2 =
      some { type := EventType.timerEvent, timestamp := 42, count := 0 + 1 } :=
  (spec_C7 ⟨true, 1000, 0, 1000⟩ true true 42).2.2.2.2.2 rfl rfl

/-- Claim C8: `al_timer_set_count` sets `count` to exactly the given value and
changes nothing else: `counter`, `speed_usecs` and `started` are unchanged. -/
theorem spec_C8 (t : Timer) (new_count : Int) :
    (al_timer_set_count t new_count).count = new_count ∧
    (al_timer_set_count t new_count).counter = t.counter ∧
    (al_timer_set_count t new_count).speed_usecs = t.speed_usecs ∧
    (al_timer_set_count t new_count).started = t.started :=
  ⟨rfl, rfl, rfl, rfl⟩

/-- Claim C9: assuming every active timer's period is positive, after one pass
of the per-cycle advance (for any non-negative elapsed interval) every active
timer's countdown is strictly positive, and the returned next sleep interval
is strictly positive and at most `0x8000 = 32768` µs. -/
theorem spec_C9 (interval : Int) (ts : List Timer)
    (hsp : ∀ t ∈ ts, 0 < t.speed_usecs) (hint : 0 ≤ interval) :
    (∀ t2 ∈ (timer_thread_handle_tick interval ts).1, 0 < t2.counter) ∧
    0 < (timer_thread_handle_tick interval ts).2 ∧
    (timer_thread_handle_tick interval ts).2 ≤ 0x8000 := by
  refine ⟨?_, ?_⟩
  · intro t2 ht2
    rw [timer_thread_handle_tick, handle_tick_go_fst] at ht2
    obtain ⟨t, ht, rfl⟩ := List.mem_map.1 ht2
    exact timer_advance_counter_pos interval t (hsp t ht)
  · exact handle_tick_go_bounds interval ts 0x8000 (by norm_num)

/-- Witness for C9: one active timer with period 1000 µs, countdown 1000 µs,
elapsed 100 µs, yields a sleep interval in `(0, 0x8000]`. -/
theorem spec_C9_witness :
    0 < (timer_thread_handle_tick 100 [⟨true, 1000, 0, 1000⟩]).2 ∧
    (timer_thread_handle_tick 100 [⟨true, 1000, 0, 1000⟩]).2 ≤ 0x8000 :=
  (spec_C9 100 [⟨true, 1000, 0, 1000⟩] (by decide) (by decide)).2

/-- Claim C10: for every positive speed `s`, `al_timer_get_speed` returns
exactly `s` both on the timer returned by `al_install_timer s` and after
`al_timer_set_speed _ s`: the speed is stored as `s * 1000` microseconds and
read back by exact division by 1000. -/
theorem spec_C10 (speed_msecs : Int) (hpos : 0 < speed_msecs) :
    (∀ allocOk t, al_install_timer speed_msecs allocOk = some t →
      t.speed_usecs = speed_msecs * 1000 ∧ al_timer_get_speed t = speed_msecs) ∧
    ∀ t : Timer, al_timer_get_speed (al_timer_set_speed t speed_msecs) = speed_msecs := by
  have key : Int.tdiv (speed_msecs * 1000) 1000 = speed_msecs :=
    Int.mul_tdiv_cancel speed_msecs (by norm_num)
  constructor
  · intro allocOk t ht
    cases allocOk <;> simp [al_install_timer] at ht
    subst ht
    exact ⟨rfl, key⟩
  · intro t
    simpa [al_timer_get_speed, al_timer_set_speed] using key

/-- Witness for C10: re-speeding a timer of period 5000 µs to 7 ms and
reading the speed back gives exactly 7. -/
theorem spec_C10_witness :
    al_timer_get_speed (al_timer_set_speed ⟨false, 5000, 0, 0⟩ 7) = 7 :=
  (spec_C10 7 (by decide)).2 ⟨false, 5000, 0, 0⟩
